import Mathlib

/-!
Verification of the Clau financial-advisory backend (`main.py`) against its
natural-language specification.

The program text is shallowly embedded: Python strings are modelled as
`List Char` (`Str`), Python's `str` helpers (`strip`, `split`, `splitlines`,
`lower`, `startswith`, the `in` operator) are modelled as executable Lean
functions, and the regular expressions of the source are modelled as
decidable matchers with the same boolean semantics on the inputs the
program feeds them.  Line splitting is modelled on the `'\n'` terminator,
the only terminator the pipeline produces.
-/

set_option maxRecDepth 20000

abbrev Str := List Char

/-! ## Python string primitives -/

/-- Python's default `str.strip` whitespace class (ASCII part, which is all
the pipeline ever meets): space, tab, newline, carriage return, vertical
tab, form feed.  Also models the `\s` class of the source's regexes. -/
def isPySpace (c : Char) : Bool :=
  c = ' ' || c = '\t' || c = '\n' || c = '\r' || c = '\x0b' || c = '\x0c'

def pyLstrip (s : Str) : Str := s.dropWhile isPySpace

def pyRstrip (s : Str) : Str := (s.reverse.dropWhile isPySpace).reverse

/-- Python `str.strip()`. -/
def pyStrip (s : Str) : Str := pyRstrip (pyLstrip s)

/-- Python `str.lower()` (ASCII case mapping). -/
def pyLower (s : Str) : Str := s.map Char.toLower

/-- Python `needle in hay` substring test. -/
def pyIn (needle hay : Str) : Bool := decide (needle <:+: hay)

/-- Python `s.startswith(pre)`. -/
def pyStartswith (s pre : Str) : Bool := pre.isPrefixOf s

/-- Helper for `pySplit`: prepend a character to the first piece. -/
def consHead (a : Char) : List Str → List Str
  | [] => [[a]]
  | h :: t => (a :: h) :: t

/-- Python `s.split(c)` for a one-character separator: keeps empty pieces,
`"".split(c) == [""]`. -/
def pySplit : Str → Char → List Str
  | [], _ => [[]]
  | a :: s, c => if a = c then [] :: pySplit s c else consHead a (pySplit s c)

/-- Python `s.splitlines()` for texts whose only line terminator is `'\n'`:
split on `'\n'`, a trailing terminator producing no final empty line, and
`"".splitlines() == []`. -/
def splitlines (s : Str) : List Str :=
  let p := pySplit s '\n'
  if p.getLast? = some [] then p.dropLast else p

/-- Python `sep.join(pieces)`. -/
def joinWith (sep : Str) : List Str → Str
  | [] => []
  | [x] => x
  | x :: y :: t => x ++ sep ++ joinWith sep (y :: t)

/-! ## Text pattern matchers (`TABLE_HEADER_RE`, `_looks_like_separator`) -/

/-- `TABLE_HEADER_RE = re.compile(r'^\|(.+?)\|\s*$', re.MULTILINE)`, used via
`.match` on a single (newline-free) stripped line: the line starts with
`'|'`, ends (after trailing whitespace) with `'|'`, with at least one
character between the two bars. -/
def TABLE_HEADER_RE_match : Str → Bool
  | '|' :: rest =>
      let r := pyRstrip rest
      2 ≤ r.length && r.getLast? = some '|' && !(r.dropLast.contains '\n')
  | _ => false

/-- The header guard of `fix_markdown_tables`:
`'|' in line.strip() and TABLE_HEADER_RE.match(line.strip())`. -/
def headerTest (line : Str) : Bool :=
  let s := pyStrip line
  s.contains '|' && TABLE_HEADER_RE_match s

/-- One `\s*:?-{3,}\s*` group of the separator regex. -/
def dashGroupTest (g : Str) : Bool :=
  let a := g.dropWhile isPySpace
  let b := if a.head? = some ':' then a.tail else a
  let d := b.takeWhile (· = '-')
  3 ≤ d.length && (b.drop d.length).all isPySpace

/-- `_looks_like_separator`:
`re.match(r'^\|\s*:?-{3,}\s*(\|\s*:?-{3,}\s*)+\|?\s*$', line.strip())`.
Matches iff the stripped line starts with `'|'` and splits on `'|'` into at
least two dash groups, with an optional trailing bar. -/
def looks_like_separator (line : Str) : Bool :=
  match pyStrip line with
  | '|' :: rest =>
      let segs := pySplit rest '|'
      let gs := if segs.getLast? = some [] then segs.dropLast else segs
      2 ≤ gs.length && gs.all dashGroupTest
  | _ => false

/-! ## Table Repair (`fix_markdown_tables`) -/

/-- The column list of a header line:
`[c.strip() for c in line.strip().split('|') if c.strip() != '']`. -/
def colsOf (line : Str) : List Str :=
  ((pySplit (pyStrip line) '|').map pyStrip).filter (· ≠ [])

def tenDashes : Str := "----------".data

/-- The synthesized separator:
`"|" + "|".join(["----------"] * len(cols)) + "|"`. -/
def sepFor (n : Nat) : Str :=
  '|' :: (joinWith ['|'] (List.replicate n tenDashes) ++ ['|'])

/-- `lines[j].strip() == ""`. -/
def blankTest (l : Str) : Bool := pyStrip l = []

/-- The body of `fix_markdown_tables`'s `while i < len(lines)` loop.  The
inner `while` that skips blank lines appends them to `out` without
advancing `i`, so after the `if` the outer loop visits (and appends) those
blank lines again; the recursion below reproduces that. -/
def fixGo : List Str → List Str
  | [] => []
  | line :: rest =>
    line ::
      (if headerTest line then
        rest.takeWhile blankTest ++
        (match rest.dropWhile blankTest with
         | next :: _ =>
             if !looks_like_separator next ∧ colsOf line ≠ [] then
               [sepFor (colsOf line).length]
             else []
         | [] =>
             if colsOf line ≠ [] then [sepFor (colsOf line).length] else []) ++
        fixGo rest
      else fixGo rest)

def fix_markdown_tables (s : Str) : Str :=
  joinWith ['\n'] (fixGo (splitlines s))

/-! ## Cell Sanitizer (`strip_bold_inside_table_cells`)

`BOLD_IN_CELL_RE = re.compile(r'(\|[^|\n]*?)\*\*(.+?)\*\*([^|\n]*?\|)')`.
The matchers below reproduce the backtracking engine: positions are tried
left to right, each lazy quantifier takes the shortest expansion under
which the rest of the pattern can still match. -/

/-- Group 3, `[^|\n]*?\|`: shortest run of non-bar, non-newline characters
followed by a bar; returns the matched text (bar included) and the rest. -/
def scanCellEnd : Str → Option (Str × Str)
  | [] => none
  | c :: rest =>
      if c = '|' then some (['|'], rest)
      else if c = '\n' then none
      else (scanCellEnd rest).map (fun p => (c :: p.1, p.2))

/-- Group 2 after its first character, `(.+?)\*\*` followed by group 3:
at each point first try to close with `**` (lazy), else consume one more
non-newline character. -/
def scanBoldClose : Str → Option (Str × Str × Str)
  | '*' :: '*' :: t =>
      (match scanCellEnd t with
       | some (g3, rest) => some ([], g3, rest)
       | none =>
           (scanBoldClose ('*' :: t)).map (fun p => ('*' :: p.1, p.2.1, p.2.2)))
  | c :: t =>
      if c = '\n' then none
      else (scanBoldClose t).map (fun p => (c :: p.1, p.2.1, p.2.2))
  | [] => none
termination_by s => s.length

/-- Group 2, `(.+?)`: at least one non-newline character. -/
def scanBold (s : Str) : Option (Str × Str × Str) :=
  match s with
  | c :: t =>
      if c = '\n' then none
      else (scanBoldClose t).map (fun p => (c :: p.1, p.2.1, p.2.2))
  | [] => none

/-- Group 1 after its bar, `[^|\n]*?\*\*` followed by groups 2 and 3:
at each point first try `**` (lazy), else consume one more non-bar,
non-newline character. -/
def scanOpen : Str → Option (Str × Str × Str × Str)
  | '*' :: '*' :: t =>
      (match scanBold t with
       | some (g2, g3, rest) => some ([], g2, g3, rest)
       | none => (scanOpen ('*' :: t)).map (fun p => ('*' :: p.1, p.2)))
  | c :: t =>
      if c = '|' || c = '\n' then none
      else (scanOpen t).map (fun p => (c :: p.1, p.2))
  | [] => none
termination_by s => s.length

/-- Try the whole pattern at the current position (which must be a bar).
Returns the replacement text `m.group(1)+m.group(2)+m.group(3)` and the
rest of the line after the match. -/
def matchBoldAt : Str → Option (Str × Str)
  | '|' :: t =>
      (scanOpen t).map (fun p => ('|' :: p.1 ++ p.2.1 ++ p.2.2.1, p.2.2.2))
  | _ => none

/-- `BOLD_IN_CELL_RE.search`: leftmost position with a match; returns the
text before the match, the replacement for the match, and the rest. -/
def boldSearch : Str → Option (Str × Str × Str)
  | [] => none
  | c :: t =>
      match matchBoldAt (c :: t) with
      | some (repl, rest) => some ([], repl, rest)
      | none => (boldSearch t).map (fun p => (c :: p.1, p.2.1, p.2.2))

/-- The `while True` replacement loop of `_replace_line`.  Each successful
search removes the two `**` markers (four characters), so `line.length` is
always enough fuel for the loop to reach its fixed point. -/
def stripBoldGo : Nat → Str → Str
  | 0, l => l
  | fuel + 1, l =>
      match boldSearch l with
      | none => l
      | some (pre, repl, post) => stripBoldGo fuel (pre ++ repl ++ post)

/-- `_replace_line`: separator lines are returned unmodified, otherwise
bold segments inside cells are removed repeatedly. -/
def replaceLine (line : Str) : Str :=
  if looks_like_separator line then line else stripBoldGo line.length line

/-- The per-line action of `strip_bold_inside_table_cells`: only lines
whose stripped form starts with `'|'` are rewritten. -/
def tableLineFix (line : Str) : Str :=
  if pyStartswith (pyStrip line) ['|'] then replaceLine line else line

def strip_bold_inside_table_cells (s : Str) : Str :=
  joinWith ['\n'] ((splitlines s).map tableLineFix)

/-! ## Line Wrapper (`soft_wrap_lines`) -/

/-- The word-packing loop of `soft_wrap_lines` (`cur` starts empty; note
the `else` branch appends `cur` even when it is still empty). -/
def wrapWords (maxLen : Nat) : List Str → Str → List Str
  | [], cur => if cur = [] then [] else [cur]
  | w :: ws, cur =>
      if cur.length + (if cur = [] then 0 else 1) + w.length ≤ maxLen then
        wrapWords maxLen ws (if cur = [] then w else cur ++ ' ' :: w)
      else
        cur :: wrapWords maxLen ws w

/-- One iteration of the `for line in text.splitlines()` loop: the new
code-fence state and the output lines this input line contributes. -/
def processLine (maxLen : Nat) (inCode : Bool) (line : Str) : Bool × List Str :=
  let striped := pyStrip line
  if pyStartswith striped "```".data then (!inCode, [line])
  else if inCode || pyStartswith striped ['|'] || looks_like_separator line
       || pyStartswith striped ['>'] then (inCode, [line])
  else if pyIn "http://".data line || pyIn "https://".data line then (inCode, [line])
  else if line.length ≤ maxLen then (inCode, [line])
  else (inCode, wrapWords maxLen (pySplit line ' ') [])

def wrapGo (maxLen : Nat) : Bool → List Str → List Str
  | _, [] => []
  | inCode, l :: ls =>
      let step := processLine maxLen inCode l
      step.2 ++ wrapGo maxLen step.1 ls

def soft_wrap_lines (s : Str) (maxLen : Nat) : Str :=
  joinWith ['\n'] (wrapGo maxLen false (splitlines s))

/-- The combined exemption condition of the wrapper's verbatim branches:
code-fence delimiters, lines inside a fence, table rows, table separators,
blockquotes, and lines containing a URL scheme marker. -/
def isWrapExempt (inCode : Bool) (line : Str) : Bool :=
  pyStartswith (pyStrip line) "```".data || inCode
    || pyStartswith (pyStrip line) ['|'] || looks_like_separator line
    || pyStartswith (pyStrip line) ['>']
    || pyIn "http://".data line || pyIn "https://".data line

/-! ## Disclaimer Enforcer and Category Classifier -/

def INVESTMENT_KEYWORDS : List Str :=
  ["stock", "stocks", "bond", "bonds", "mutual fund", "etf", "portfolio",
   "asset allocation", "diversification", "brokerage", "retirement", "401(k)",
   "roth", "ira", "market", "equity", "securities", "dividend"].map String.data

def CATEGORY_MAP : List (Str × List Str) :=
  [("personal_finance".data,
    ["budget", "budgeting", "save", "saving", "debt", "loan", "rent", "groceries",
     "emergency fund", "expense", "utilities", "credit score", "dti", "spend"].map String.data),
   ("investments".data, INVESTMENT_KEYWORDS),
   ("financial_planning".data,
    ["retirement", "401(k)", "roth", "ira", "college", "529", "pension",
     "estate", "insurance", "planning", "goal"].map String.data),
   ("financial_literacy".data,
    ["compound interest", "apr", "apy", "rule of 72", "inflation", "amortization",
     "interest rate", "depreciation"].map String.data),
   ("market_trends".data,
    ["cpi", "inflation", "interest rates", "fed", "gdp", "unemployment",
     "oil prices", "market trend", "economic indicator", "yield curve", "central bank"].map String.data)]

/-- `detect_category`: first category (in declaration order) with a keyword
occurring in the lower-cased text, falling back to the investment list and
then to `"personal_finance"`. -/
def detect_category (text : Str) : Str :=
  match CATEGORY_MAP.find? (fun ck => ck.2.any (fun k => pyIn k (pyLower text))) with
  | some ck => ck.1
  | none =>
      if INVESTMENT_KEYWORDS.any (fun k => pyIn k (pyLower text)) then "investments".data
      else "personal_finance".data

def is_investment_related (text : Str) : Bool :=
  INVESTMENT_KEYWORDS.any (fun k => pyIn k (pyLower text))

def DISCLAIMER_TEXT : Str :=
  ("Disclaimer: This is for informational purposes only and not professional financial advice. Consult a certified financial planner or tax professional for personalized guidance.").data

/-- The guard of `ensure_disclaimer`: both required substrings are present. -/
def hasDisclaimer (answer : Str) : Bool :=
  pyIn "informational purposes only".data (pyLower answer)
    && pyIn "not professional financial advice".data (pyLower answer)

/-- `ensure_disclaimer`: appends the disclaimer when the text is
investment-related and lacks it, returning the text and whether a
disclaimer is now present. -/
def ensure_disclaimer (answer : Str) : Str × Bool :=
  let has := hasDisclaimer answer
  if is_investment_related answer && !has then
    ((if answer.getLast? = some '\n' then answer else answer ++ ['\n'])
      ++ '\n' :: DISCLAIMER_TEXT, true)
  else (answer, has)

/-! ## Prompt injection and category tagging in `ask_question` -/

/-- The source's triple-quoted `SYSTEM_PROMPT`, written as the
concatenation of its successive line groups (`promptPart0 ++ … ++
promptPart4` below is the exact prompt text, leading and trailing newline
included). -/
def promptPart0 : Str :=
  ("\nYou are a professional, helpful, and highly knowledgeable financial advisor chatbot named \"Clau\".\nYour primary goal is to provide accurate, clear, and concise financial guidance.\n\nMandatory Table Formatting Rule:\nEvery table MUST follow this exact Markdown structure:\n| Header 1 | Header 2 | Header 3 |\n|----------|----------|----------|\n| Row 1    | Row 1    | Row 1    |\n").data

def promptPart1 : Str :=
  ("| Row 2    | Row 2    | Row 2    |\n\n- The header separator line (---------) is REQUIRED for every table, also use vertical lines\n- Never bold table cell content; use bold only outside tables.\n- Keep table text concise for mobile readability.\n- Use tables wherever they clarify comparisons.\n- Use Dates, Values, Percentages, and Timeframes as much possible.\n\nResponsibilities:\n").data

def promptPart2 : Str :=
  ("1) Advise on personal finance, saving, debt, investments, retirement, college planning, and financial literacy.\n2) Explain complex topics simply; use bullets, tables, headers, and blockquotes.\n3) When answering about market trends or economic indicators, always include:\n   - The **most recent date** of the data\n   - **Exact numerical values** (percentages, dollar amounts, index points)\n").data

def promptPart3 : Str :=
  ("   - **Relevant timeframes** (e.g., “past 6 months”, “since Jan 2024”)\n   - **Source name** (e.g., “Source: Bloomberg”)\n4) When giving investment-related advice, include this disclaimer at the end:\n5) Keep responses concise but complete; avoid greetings.\n6) Format numbers clearly: percentages, $ amounts, and timeframes.\n").data

def promptPart4 : Str :=
  ("7) Ask for missing key inputs only when needed; do NOT repeat asks already provided.\n8) End with a bold Final Recommendation line, e.g., **Final Recommendation: Save $200 and cap wants at $300.**\n").data

def SYSTEM_PROMPT : Str :=
  promptPart0 ++ promptPart1 ++ promptPart2 ++ promptPart3 ++ promptPart4

/-- A content part, `{"text": ...}`: only the optional `text` field is
relevant to the handler. -/
structure MsgPart where
  text : Option Str

/-- A conversation message with a role and content parts. -/
structure Msg where
  role : Str
  parts : List MsgPart

/-- `next((m for m in data.contents if m.role.lower() == "user"), None)`. -/
def firstUser (contents : List Msg) : Option Msg :=
  contents.find? (fun m => pyLower m.role = "user".data)

/-- The value of `first_user.parts[0]["text"]` read back for category
tagging.  The injection step mutates that same dictionary entry, so the
read returns the prompt-injected text
`f"{SYSTEM_PROMPT}\n\nUser question:\n{original}"`; when there is no user
message or it has no parts, neither the injection nor the read happens and
`user_text` stays `""`. -/
def userTextAfterInjection (contents : List Msg) : Str :=
  match firstUser contents with
  | some m =>
      match m.parts with
      | p :: _ => SYSTEM_PROMPT ++ "\n\nUser question:\n".data ++ p.text.getD []
      | [] => []
  | none => []

/-- `category = detect_category(user_text or text)` where `text` is the
post-processed answer. -/
def responseCategory (contents : List Msg) (answerText : Str) : Str :=
  detect_category
    (if userTextAfterInjection contents = [] then answerText
     else userTextAfterInjection contents)

/-! ## Upstream call (`call_gemini`) and response parsing -/

/-- A JSON value, as returned by `resp.json()`. -/
inductive Json where
  | null : Json
  | bool : Bool → Json
  | num : Int → Json
  | str : Str → Json
  | arr : List Json → Json
  | obj : List (Str × Json) → Json

/-- What one `requests.post` attempt observes: an HTTP response with a
status, a body text and its parsed JSON, a timeout, or another request
exception. -/
inductive NetResult where
  | resp : Nat → Str → Json → NetResult
  | timeout : NetResult
  | reqError : NetResult

/-- The outcome of `call_gemini`: the parsed body with the count of prior
failed attempts, or an `HTTPException` with a status code and detail. -/
inductive CallOutcome where
  | ok : Json → Nat → CallOutcome
  | err : Nat → Str → CallOutcome

/-- The retry loop of `call_gemini`; `net attempt` is what the
`attempt`-th `requests.post` observes, and the returned list records the
`time.sleep` backoff delays in order. -/
def callGo (net : Nat → NetResult) (maxRetries : Nat) (baseDelay : ℚ) :
    Nat → Nat → Str → List ℚ → CallOutcome × List ℚ
  | 0, _, lastErr, sleeps =>
      (.err 502 (if lastErr = [] then "AI service temporarily unavailable".data else lastErr),
       sleeps)
  | remaining + 1, attempt, lastErr, sleeps =>
      match net attempt with
      | .resp status text json =>
          if status = 200 then (.ok json (attempt - 1), sleeps)
          else if status ∈ [429, 500, 502, 503, 504] then
            callGo net maxRetries baseDelay remaining (attempt + 1) text
              (sleeps ++ [baseDelay * 2 ^ (attempt - 1)])
          else
            (.err status text, sleeps)
      | .timeout =>
          if attempt = maxRetries then
            (.err 504 "Request to AI service timed out".data, sleeps)
          else
            callGo net maxRetries baseDelay remaining (attempt + 1) lastErr
              (sleeps ++ [baseDelay * 2 ^ (attempt - 1)])
      | .reqError =>
          if attempt = maxRetries then
            (.err 502 "AI service temporarily unavailable".data, sleeps)
          else
            callGo net maxRetries baseDelay remaining (attempt + 1) lastErr
              (sleeps ++ [baseDelay * 2 ^ (attempt - 1)])

/-- `call_gemini(payload, max_retries=3, base_delay=0.8)`: fails fast with
a 500 when `GEMINI_API_KEY` is missing or empty, otherwise runs the retry
loop starting at attempt 1. -/
def call_gemini (apiKey : Option Str) (net : Nat → NetResult)
    (maxRetries : Nat) (baseDelay : ℚ) : CallOutcome × List ℚ :=
  match apiKey with
  | none => (.err 500 "GEMINI_API_KEY not configured".data, [])
  | some k =>
      if k = [] then (.err 500 "GEMINI_API_KEY not configured".data, [])
      else callGo net maxRetries baseDelay maxRetries 1 [] []

/-- Python `d.get(key, default)`; raises (`.error`) when the receiver is
not a dict. -/
def pyGetD : Json → Str → Json → Except Unit Json
  | .obj kvs, k, d => .ok (((kvs.find? (fun kv => kv.1 = k)).map (·.2)).getD d)
  | _, _, _ => .error ()

/-- Python `x[0]` on the parsed JSON: succeeds on a non-empty list, raises
otherwise.  (On a JSON string Python indexing itself succeeds but the
following `.get` then raises, so the chain's observable behaviour is the
same.) -/
def pyIdx0 : Json → Except Unit Json
  | .arr (x :: _) => .ok x
  | _ => .error ()

/-- `raw.get("candidates", [{}])[0].get("content", {}).get("parts", [{}])[0].get("text", "")`. -/
def parse_gemini_text (raw : Json) : Except Unit Json := do
  let cands ← pyGetD raw "candidates".data (.arr [.obj []])
  let c0 ← pyIdx0 cands
  let content ← pyGetD c0 "content".data (.obj [])
  let parts ← pyGetD content "parts".data (.arr [.obj []])
  let p0 ← pyIdx0 parts
  pyGetD p0 "text".data (.str [])

/-- The `try/except` around the parse in `ask_question`: any parse failure
is re-raised as `HTTPException(status_code=502, detail="Invalid response
from AI service")`.  (The separate empty-answer check that follows also
raises a 502.) -/
def parse_step (raw : Json) : Except (Nat × Str) Json :=
  match parse_gemini_text raw with
  | .error _ => .error (502, "Invalid response from AI service".data)
  | .ok t => .ok t

/-! ## Lemmas about the string primitives -/

theorem pySplit_ne_nil (s : Str) (c : Char) : pySplit s c ≠ [] := by
  induction s with
  | nil => simp [pySplit]
  | cons a s ih =>
    simp only [pySplit]
    by_cases hac : a = c
    · simp [hac]
    · rw [if_neg hac]
      cases hps : pySplit s c with
      | nil => exact absurd hps ih
      | cons h t => simp [consHead]

theorem not_mem_of_mem_pySplit (s : Str) (c : Char) :
    ∀ w ∈ pySplit s c, c ∉ w := by
  induction s with
  | nil =>
    intro w hw
    simp only [pySplit, List.mem_singleton] at hw
    subst hw; simp
  | cons a s ih =>
    intro w hw
    simp only [pySplit] at hw
    by_cases hac : a = c
    · rw [if_pos hac] at hw
      rcases List.mem_cons.mp hw with h | h
      · subst h; simp
      · exact ih w h
    · rw [if_neg hac] at hw
      cases hps : pySplit s c with
      | nil => exact absurd hps (pySplit_ne_nil s c)
      | cons h t =>
        rw [hps] at hw
        simp only [consHead, List.mem_cons] at hw
        rcases hw with h1 | h1
        · subst h1
          intro hmem
          rcases List.mem_cons.mp hmem with h2 | h2
          · exact hac h2.symm
          · exact ih h (hps ▸ List.mem_cons_self h t) h2
        · exact ih w (hps ▸ List.mem_cons_of_mem h h1)

theorem mem_of_mem_pySplit (s : Str) (c : Char) :
    ∀ w ∈ pySplit s c, ∀ a ∈ w, a ∈ s := by
  induction s with
  | nil =>
    intro w hw
    simp only [pySplit, List.mem_singleton] at hw
    subst hw; simp
  | cons b s ih =>
    intro w hw a ha
    simp only [pySplit] at hw
    by_cases hbc : b = c
    · rw [if_pos hbc] at hw
      rcases List.mem_cons.mp hw with h | h
      · subst h; simp at ha
      · exact List.mem_cons_of_mem b (ih w h a ha)
    · rw [if_neg hbc] at hw
      cases hps : pySplit s c with
      | nil => exact absurd hps (pySplit_ne_nil s c)
      | cons h t =>
        rw [hps] at hw
        simp only [consHead, List.mem_cons] at hw
        rcases hw with h1 | h1
        · subst h1
          rcases List.mem_cons.mp ha with h2 | h2
          · exact h2 ▸ List.mem_cons_self b s
          · exact List.mem_cons_of_mem b (ih h (hps ▸ List.mem_cons_self h t) a h2)
        · exact List.mem_cons_of_mem b (ih w (hps ▸ List.mem_cons_of_mem h h1) a ha)

theorem pySplit_append_cons (w r : Str) (c : Char) (h : c ∉ w) :
    pySplit (w ++ c :: r) c = w :: pySplit r c := by
  induction w with
  | nil => simp [pySplit]
  | cons a w ih =>
    have hac : ¬(a = c) := fun hh => h (hh ▸ List.mem_cons_self a w)
    have hcw : c ∉ w := fun hh => h (List.mem_cons_of_mem a hh)
    simp only [List.cons_append, pySplit, if_neg hac]
    show consHead a (pySplit (w ++ c :: r) c) = _
    rw [ih hcw]
    simp [consHead]

theorem pySplit_eq_self (w : Str) (c : Char) (h : c ∉ w) :
    pySplit w c = [w] := by
  induction w with
  | nil => simp [pySplit]
  | cons a w ih =>
    have hac : ¬(a = c) := fun hh => h (hh ▸ List.mem_cons_self a w)
    have hcw : c ∉ w := fun hh => h (List.mem_cons_of_mem a hh)
    simp only [pySplit, if_neg hac, ih hcw, consHead]

theorem pySplit_joinWith (c : Char) :
    ∀ ls : List Str, ls ≠ [] → (∀ l ∈ ls, c ∉ l) →
      pySplit (joinWith [c] ls) c = ls := by
  intro ls
  induction ls with
  | nil => intro h; exact absurd rfl h
  | cons x ls ih =>
    intro _ hmem
    cases ls with
    | nil => simpa [joinWith] using pySplit_eq_self x c (hmem x (List.mem_cons_self x []))
    | cons y t =>
      have hx : c ∉ x := hmem x (List.mem_cons_self x (y :: t))
      have : joinWith [c] (x :: y :: t) = x ++ c :: joinWith [c] (y :: t) := by
        simp [joinWith]
      rw [this, pySplit_append_cons x _ c hx,
        ih (by simp) (fun l hl => hmem l (List.mem_cons_of_mem x hl))]

theorem splitlines_joinWith (ls : List Str) (h : ∀ l ∈ ls, '\n' ∉ l) :
    splitlines (joinWith ['\n'] ls) =
      if ls.getLast? = some [] then ls.dropLast else ls := by
  cases ls with
  | nil => simp [joinWith, splitlines, pySplit]
  | cons x t =>
    unfold splitlines
    rw [pySplit_joinWith '\n' (x :: t) (by simp) h]

theorem splitlines_joinWith_of_last (ls : List Str) (h : ∀ l ∈ ls, '\n' ∉ l)
    (h2 : ls.getLast? ≠ some []) :
    splitlines (joinWith ['\n'] ls) = ls := by
  rw [splitlines_joinWith ls h, if_neg h2]

theorem not_newline_mem_splitlines (s : Str) :
    ∀ l ∈ splitlines s, '\n' ∉ l := by
  intro l hl
  unfold splitlines at hl
  by_cases hc : (pySplit s '\n').getLast? = some []
  · rw [if_pos hc] at hl
    exact not_mem_of_mem_pySplit s '\n' l (List.dropLast_subset _ hl)
  · rw [if_neg hc] at hl
    exact not_mem_of_mem_pySplit s '\n' l hl

theorem pyIn_iff (needle hay : Str) : pyIn needle hay = true ↔ needle <:+: hay := by
  simp [pyIn]

theorem pyIn_append_left (k s t : Str) (h : pyIn k s = true) :
    pyIn k (s ++ t) = true := by
  rw [pyIn_iff] at h ⊢
  obtain ⟨u, v, huv⟩ := h
  exact ⟨u, v ++ t, by rw [← huv]; simp [List.append_assoc]⟩

theorem pyIn_append_right (k s t : Str) (h : pyIn k t = true) :
    pyIn k (s ++ t) = true := by
  rw [pyIn_iff] at h ⊢
  obtain ⟨u, v, huv⟩ := h
  exact ⟨s ++ u, v, by rw [← huv]; simp [List.append_assoc]⟩

/-! ## Lemmas about the pipeline passes -/

theorem fixGo_of_no_header (ls : List Str)
    (h : ∀ l ∈ ls, headerTest l = false) : fixGo ls = ls := by
  induction ls with
  | nil => rfl
  | cons line rest ih =>
    unfold fixGo
    rw [if_neg (by simp [h line (List.mem_cons_self line rest)]),
      ih (fun l hl => h l (List.mem_cons_of_mem line hl))]

theorem wrapWords_length_le (m : Nat) :
    ∀ (ws : List Str) (cur : Str), (∀ w ∈ ws, w.length ≤ m) → cur.length ≤ m →
      ∀ o ∈ wrapWords m ws cur, o.length ≤ m := by
  intro ws
  induction ws with
  | nil =>
    intro cur _ hcur o ho
    unfold wrapWords at ho
    by_cases hc : cur = []
    · simp [hc] at ho
    · rw [if_neg hc] at ho
      simp at ho
      exact ho ▸ hcur
  | cons w ws ih =>
    intro cur hws hcur o ho
    have hw : w.length ≤ m := hws w (List.mem_cons_self w ws)
    have hws' : ∀ x ∈ ws, x.length ≤ m := fun x hx => hws x (List.mem_cons_of_mem w hx)
    unfold wrapWords at ho
    by_cases hfit : cur.length + (if cur = [] then 0 else 1) + w.length ≤ m
    · rw [if_pos hfit] at ho
      refine ih _ hws' ?_ o ho
      by_cases hc : cur = []
      · simpa [hc] using hw
      · rw [if_neg hc]
        have hfit' : cur.length + 1 + w.length ≤ m := by simpa [if_neg hc] using hfit
        simp only [List.length_append, List.length_cons]
        omega
    · rw [if_neg hfit] at ho
      rcases List.mem_cons.mp ho with h1 | h1
      · exact h1 ▸ hcur
      · exact ih w hws' hw o h1

theorem wrapWords_not_mem (m : Nat) (a : Char) (ha : a ≠ ' ') :
    ∀ (ws : List Str) (cur : Str), (∀ w ∈ ws, a ∉ w) → a ∉ cur →
      ∀ o ∈ wrapWords m ws cur, a ∉ o := by
  intro ws
  induction ws with
  | nil =>
    intro cur _ hcur o ho
    unfold wrapWords at ho
    by_cases hc : cur = []
    · simp [hc] at ho
    · rw [if_neg hc] at ho
      simp at ho
      exact ho ▸ hcur
  | cons w ws ih =>
    intro cur hws hcur o ho
    have hw : a ∉ w := hws w (List.mem_cons_self w ws)
    have hws' : ∀ x ∈ ws, a ∉ x := fun x hx => hws x (List.mem_cons_of_mem w hx)
    unfold wrapWords at ho
    by_cases hfit : cur.length + (if cur = [] then 0 else 1) + w.length ≤ m
    · rw [if_pos hfit] at ho
      refine ih _ hws' ?_ o ho
      by_cases hc : cur = []
      · simpa [hc] using hw
      · rw [if_neg hc]
        intro hmem
        rcases List.mem_append.mp hmem with h1 | h1
        · exact hcur h1
        · rcases List.mem_cons.mp h1 with h2 | h2
          · exact ha h2
          · exact hw h2
    · rw [if_neg hfit] at ho
      rcases List.mem_cons.mp ho with h1 | h1
      · exact h1 ▸ hcur
      · exact ih w hws' hw o h1

theorem processLine_snd (m : Nat) (st : Bool) (l : Str) :
    (processLine m st l).2 = [l] ∨
      (processLine m st l).2 = wrapWords m (pySplit l ' ') [] := by
  unfold processLine
  by_cases h1 : pyStartswith (pyStrip l) "```".data
  · simp [h1]
  · by_cases h2 : (st || pyStartswith (pyStrip l) ['|'] || looks_like_separator l
        || pyStartswith (pyStrip l) ['>'])
    · simp [h1, h2]
    · by_cases h3 : (pyIn "http://".data l || pyIn "https://".data l)
      · simp [h1, h2, h3]
      · by_cases h4 : l.length ≤ m
        · simp [h1, h2, h3, h4]
        · simp [h1, h2, h3, h4]

theorem wrapGo_mem (m : Nat) :
    ∀ (ls : List Str) (st : Bool),
      (∀ l ∈ ls, ∀ w ∈ pySplit l ' ', w.length ≤ m) →
      ∀ o ∈ wrapGo m st ls, o.length ≤ m ∨ o ∈ ls := by
  intro ls
  induction ls with
  | nil => intro st _ o ho; simp [wrapGo] at ho
  | cons l rest ih =>
    intro st hws o ho
    unfold wrapGo at ho
    rcases List.mem_append.mp ho with h1 | h1
    · rcases processLine_snd m st l with hp | hp
      · rw [hp] at h1
        simp at h1
        exact Or.inr (by simp [h1])
      · rw [hp] at h1
        exact Or.inl (wrapWords_length_le m (pySplit l ' ') []
          (hws l (List.mem_cons_self l rest)) (by simp) o h1)
    · rcases ih _ (fun x hx => hws x (List.mem_cons_of_mem l hx)) o h1 with h2 | h2
      · exact Or.inl h2
      · exact Or.inr (List.mem_cons_of_mem l h2)

theorem wrapGo_not_newline (m : Nat) :
    ∀ (ls : List Str) (st : Bool), (∀ l ∈ ls, '\n' ∉ l) →
      ∀ o ∈ wrapGo m st ls, '\n' ∉ o := by
  intro ls
  induction ls with
  | nil => intro st _ o ho; simp [wrapGo] at ho
  | cons l rest ih =>
    intro st hls o ho
    have hl : '\n' ∉ l := hls l (List.mem_cons_self l rest)
    unfold wrapGo at ho
    rcases List.mem_append.mp ho with h1 | h1
    · rcases processLine_snd m st l with hp | hp
      · rw [hp] at h1
        simp at h1
        exact h1 ▸ hl
      · rw [hp] at h1
        exact wrapWords_not_mem m '\n' (by decide) (pySplit l ' ') []
          (fun w hw hmem => hl (mem_of_mem_pySplit l ' ' w hw '\n' hmem))
          (by simp) o h1
    · exact ih _ (fun x hx => hls x (List.mem_cons_of_mem l hx)) o h1

theorem pyLower_append (s t : Str) : pyLower (s ++ t) = pyLower s ++ pyLower t :=
  List.map_append Char.toLower s t

theorem processLine_exempt (m : Nat) (st : Bool) (l : Str)
    (h : isWrapExempt st l = true) : (processLine m st l).2 = [l] := by
  unfold processLine
  by_cases h1 : pyStartswith (pyStrip l) "```".data
  · simp [h1]
  · by_cases h2 : (st || pyStartswith (pyStrip l) ['|'] || looks_like_separator l
        || pyStartswith (pyStrip l) ['>'])
    · simp [h1, h2]
    · by_cases h3 : (pyIn "http://".data l || pyIn "https://".data l)
      · simp [h1, h2, h3]
      · exfalso
        unfold isWrapExempt at h
        rw [Bool.not_eq_true] at h1 h2 h3
        simp only [Bool.or_eq_false_iff] at h2 h3
        obtain ⟨⟨⟨hst, hbar⟩, hsep⟩, hgt⟩ := h2
        obtain ⟨hu1, hu2⟩ := h3
        simp [h1, hst, hbar, hsep, hgt, hu1, hu2] at h

/-- The lower-cased injected message contains the `personal_finance`
keyword `"saving"` (it occurs in `promptPart2`), so `detect_category`
returns the first category for every original question text. -/
theorem detect_category_injected (x : Str) :
    detect_category (SYSTEM_PROMPT ++ "\n\nUser question:\n".data ++ x) =
      "personal_finance".data := by
  have hc2 : ("saving".data : Str) <:+: pyLower promptPart2 := by decide
  have hsp : promptPart2 <:+: SYSTEM_PROMPT ++ "\n\nUser question:\n".data ++ x :=
    ⟨promptPart0 ++ promptPart1,
     promptPart3 ++ (promptPart4 ++ ("\n\nUser question:\n".data ++ x)),
     by simp [SYSTEM_PROMPT, List.append_assoc]⟩
  have hin : pyIn "saving".data
      (pyLower (SYSTEM_PROMPT ++ "\n\nUser question:\n".data ++ x)) = true := by
    rw [pyIn_iff]
    exact hc2.trans (hsp.map Char.toLower)
  have hpred :
      (fun ck : Str × List Str => ck.2.any
          (fun k => pyIn k (pyLower (SYSTEM_PROMPT ++ "\n\nUser question:\n".data ++ x))))
        ("personal_finance".data,
          ["budget", "budgeting", "save", "saving", "debt", "loan", "rent", "groceries",
           "emergency fund", "expense", "utilities", "credit score", "dti",
           "spend"].map String.data) = true := by
    refine List.any_eq_true.mpr ⟨"saving".data, ?_, hin⟩
    simp
  have hfind : CATEGORY_MAP.find?
      (fun ck => ck.2.any
        (fun k => pyIn k (pyLower (SYSTEM_PROMPT ++ "\n\nUser question:\n".data ++ x)))) =
      some ("personal_finance".data,
        ["budget", "budgeting", "save", "saving", "debt", "loan", "rent", "groceries",
         "emergency fund", "expense", "utilities", "credit score", "dti",
         "spend"].map String.data) := by
    rw [show CATEGORY_MAP =
        ("personal_finance".data,
          ["budget", "budgeting", "save", "saving", "debt", "loan", "rent", "groceries",
           "emergency fund", "expense", "utilities", "credit score", "dti",
           "spend"].map String.data) :: CATEGORY_MAP.tail from rfl]
    exact List.find?_cons_of_pos _ hpred
  unfold detect_category
  rw [hfind]

theorem joinWith_append_blank (c : Char) :
    ∀ ls : List Str, ls ≠ [] →
      joinWith [c] (ls ++ [[]]) = joinWith [c] ls ++ [c] := by
  intro ls
  induction ls with
  | nil => intro h; exact absurd rfl h
  | cons x t ih =>
    intro _
    cases t with
    | nil => simp [joinWith]
    | cons y t' =>
      have h2 := ih (by simp)
      calc joinWith [c] ((x :: y :: t') ++ [[]])
          = x ++ [c] ++ joinWith [c] ((y :: t') ++ [[]]) := by rfl
        _ = x ++ [c] ++ (joinWith [c] (y :: t') ++ [c]) := by rw [h2]
        _ = joinWith [c] (x :: y :: t') ++ [c] := by
              show _ = (x ++ [c] ++ joinWith [c] (y :: t')) ++ [c]
              simp [List.append_assoc]

theorem pySplit_sepFor (n : Nat) (hn : 1 ≤ n) :
    pySplit (sepFor n) '|' = [] :: (List.replicate n tenDashes ++ [[]]) := by
  have hrep : ∀ l ∈ List.replicate n tenDashes ++ [[]], '|' ∉ l := by
    intro l hl
    rcases List.mem_append.mp hl with h | h
    · rw [List.eq_of_mem_replicate h]
      decide
    · simp at h
      simp [h]
  have hne : List.replicate n tenDashes ≠ [] := by
    intro h
    have := congrArg List.length h
    simp at this
    omega
  unfold sepFor
  have : pySplit
      ('|' :: (joinWith ['|'] (List.replicate n tenDashes) ++ ['|'])) '|' =
      [] :: pySplit (joinWith ['|'] (List.replicate n tenDashes) ++ ['|']) '|' := by
    simp [pySplit]
  rw [this]
  have hjoin : joinWith ['|'] (List.replicate n tenDashes) ++ ['|'] =
      joinWith ['|'] (List.replicate n tenDashes ++ [[]]) :=
    (joinWith_append_blank '|' (List.replicate n tenDashes) hne).symm
  rw [hjoin, pySplit_joinWith '|' _ (by simp) hrep]

theorem sepFor_groups (n : Nat) (hn : 1 ≤ n) :
    ((pySplit (sepFor n) '|').filter (fun g => g ≠ [])).length = n := by
  rw [pySplit_sepFor n hn]
  have key : ∀ m : Nat,
      ((List.replicate m tenDashes ++ [[]]).filter (fun g : Str => g ≠ [])).length = m := by
    intro m
    induction m with
    | zero => simp
    | succ k ih =>
      rw [List.replicate_succ, List.cons_append,
        List.filter_cons_of_pos (by decide), List.length_cons, ih]
  rw [List.filter_cons_of_neg (by decide)]
  exact key n

/-- Modelled from the claim's words (C7): the column count obtained by
splitting the stripped header line on `'|'` and discarding only the empty
boundary fragments. -/
def boundaryColumnCount (line : Str) : Nat :=
  let fr := pySplit (pyStrip line) '|'
  let fr1 := if fr.head? = some [] then fr.tail else fr
  let fr2 := if fr1.getLast? = some [] then fr1.dropLast else fr1
  fr2.length

/-! ## Claim theorems -/

/-- C1: Table Repair does NOT leave already-valid tables unchanged.  The
table `"|H|H|\n|---|---|\n|A|B|"` already has a valid separator after its
header row, yet `fix_markdown_tables` inserts a synthesized separator
after the existing separator row and after the data row (every
`|`-delimited row matches `TABLE_HEADER_RE`), so the output differs from
the input.  This evaluates the embedded code at the failing input. -/
theorem fix_tables_alters_valid_table :
    fix_markdown_tables ("|H|H|\n|---|---|\n|A|B|").data =
      ("|H|H|\n|---|---|\n|----------|----------|\n|A|B|\n|----------|----------|").data ∧
    fix_markdown_tables ("|H|H|\n|---|---|\n|A|B|").data ≠
      ("|H|H|\n|---|---|\n|A|B|").data := by
  constructor
  · decide
  · decide

/-- C3 counterexample: `fix_markdown_tables` is not idempotent.  On the
single-row table `"|A|B|"` one application appends one synthesized
separator, and a second application appends another one (the synthesized
separator itself matches the header pattern and is not followed by a
separator), so applying it twice differs from applying it once. -/
theorem fix_tables_not_idempotent :
    fix_markdown_tables (fix_markdown_tables ("|A|B|").data) ≠
      fix_markdown_tables ("|A|B|").data := by
  decide

/-- C3 amended: `fix_markdown_tables` is idempotent on texts none of whose
lines passes the table-header test, provided the text does not end in an
empty trailing line. -/
theorem fix_tables_idempotent_amended (x : Str)
    (h1 : ∀ l ∈ splitlines x, headerTest l = false)
    (h2 : (splitlines x).getLast? ≠ some []) :
    fix_markdown_tables (fix_markdown_tables x) = fix_markdown_tables x := by
  unfold fix_markdown_tables
  rw [fixGo_of_no_header _ h1,
    splitlines_joinWith_of_last _ (not_newline_mem_splitlines x) h2,
    fixGo_of_no_header _ h1]

theorem fix_tables_idempotent_amended_witness :
    fix_markdown_tables (fix_markdown_tables ("hello world").data) =
      fix_markdown_tables ("hello world").data :=
  fix_tables_idempotent_amended ("hello world").data (by decide) (by decide)

/-- C7 counterexample: for the header row `"|a||b|"` the claim's column
count (split on `'|'`, discarding only the empty boundary fragments) is 3,
but the code discards every blank fragment, counts 2 columns, and the
separator it synthesizes (and inserts) has exactly 2 dash groups, not 3. -/
theorem sep_groups_mismatch_boundary_count :
    boundaryColumnCount ("|a||b|").data = 3 ∧
    headerTest ("|a||b|").data = true ∧
    (colsOf ("|a||b|").data).length = 2 ∧
    ((pySplit (sepFor (colsOf ("|a||b|").data).length) '|').filter
        (fun g => g ≠ [])).length = 2 ∧
    fix_markdown_tables ("|a||b|").data = ("|a||b|\n|----------|----------|").data := by
  refine ⟨by decide, by decide, by decide, by decide, by decide⟩

/-- C7 amended: for every header row with N columns — columns counted as
the code counts them, by splitting the stripped line on `'|'` and
discarding every fragment that is blank after stripping — the separator
row that Table Repair synthesizes consists of exactly N `|`-delimited dash
groups. -/
theorem sep_groups_match_code_column_count (line : Str)
    (h : colsOf line ≠ []) :
    ((pySplit (sepFor (colsOf line).length) '|').filter
        (fun g => g ≠ [])).length = (colsOf line).length :=
  sepFor_groups (colsOf line).length (List.length_pos.mpr h)

theorem sep_groups_match_code_column_count_witness :
    ((pySplit (sepFor (colsOf ("| a | b |").data).length) '|').filter
        (fun g => g ≠ [])).length = (colsOf ("| a | b |").data).length :=
  sep_groups_match_code_column_count ("| a | b |").data (by decide)

/-- C8: the Cell Sanitizer leaves every line that is not a table line
(stripped form does not start with `'|'`) unchanged, leaves every
separator line unchanged, and the whole pass is exactly the per-line map
joined back with newlines, so bold markup in prose outside tables is
preserved byte for byte. -/
theorem strip_bold_frame (text l : Str) (_hl : l ∈ splitlines text) :
    ((pyStartswith (pyStrip l) ['|'] = false → tableLineFix l = l) ∧
     (looks_like_separator l = true → tableLineFix l = l)) ∧
    strip_bold_inside_table_cells text =
      joinWith ['\n'] ((splitlines text).map tableLineFix) := by
  refine ⟨⟨?_, ?_⟩, rfl⟩
  · intro h
    unfold tableLineFix
    rw [h]
    simp
  · intro h
    unfold tableLineFix replaceLine
    rw [h]
    simp

theorem strip_bold_frame_witness :
    tableLineFix ("plain **bold** prose").data = ("plain **bold** prose").data :=
  (strip_bold_frame ("plain **bold** prose").data ("plain **bold** prose").data
    (by decide)).1.1 (by decide)

/-- C4 counterexample: with the default maximum of 109, the single
110-character word line (no spaces) is not exempt, yet the wrapper emits
it as an output line of length 110 (preceded by an empty line produced by
the first `out.append(cur)` with `cur` still empty), violating the bound.
-/
theorem soft_wrap_emits_overlong_line :
    splitlines (soft_wrap_lines (List.replicate 110 'a') 109) =
      [[], List.replicate 110 'a'] ∧
    109 < (List.replicate 110 'a' : Str).length ∧
    isWrapExempt false (List.replicate 110 'a') = false := by
  refine ⟨by decide, by decide, by decide⟩

/-- C4 amended: provided every space-delimited word of every input line is
at most the configured maximum, every output line of the Line Wrapper is
either at most the maximum length or is an input line emitted verbatim;
and every line that is exempt in its traversal context (code-fence
delimiter, inside a fence, table row, table separator, blockquote, or
containing a URL scheme marker) is emitted verbatim as a single output
line, never split. -/
theorem soft_wrap_lines_bounded_amended (text : Str) (maxLen : Nat)
    (hw : ∀ l ∈ splitlines text, ∀ w ∈ pySplit l ' ', w.length ≤ maxLen) :
    (∀ o ∈ splitlines (soft_wrap_lines text maxLen),
        o.length ≤ maxLen ∨ o ∈ splitlines text) ∧
    (∀ (st : Bool) (l : Str), isWrapExempt st l = true →
        (processLine maxLen st l).2 = [l]) := by
  constructor
  · intro o ho
    have hnl : ∀ x ∈ wrapGo maxLen false (splitlines text), '\n' ∉ x :=
      wrapGo_not_newline maxLen _ false (not_newline_mem_splitlines text)
    have hsl := splitlines_joinWith (wrapGo maxLen false (splitlines text)) hnl
    unfold soft_wrap_lines at ho
    rw [hsl] at ho
    have ho' : o ∈ wrapGo maxLen false (splitlines text) := by
      by_cases hc : (wrapGo maxLen false (splitlines text)).getLast? = some ([] : Str)
      · rw [if_pos hc] at ho
        exact List.dropLast_subset _ ho
      · rw [if_neg hc] at ho
        exact ho
    exact wrapGo_mem maxLen _ false hw o ho'
  · intro st l hex
    exact processLine_exempt maxLen st l hex

theorem soft_wrap_lines_bounded_amended_witness :
    (("hello world").data.length ≤ 109 ∨
      ("hello world").data ∈ splitlines ("hello world").data) :=
  (soft_wrap_lines_bounded_amended ("hello world").data 109 (by decide)).1
    ("hello world").data (by decide)

/-- C9: the Disclaimer Enforcer is idempotent — applying
`ensure_disclaimer` to the text it returns yields the same text and the
same boolean, because the appended disclaimer sentence contains both
required guard substrings. -/
theorem ensure_disclaimer_idempotent (a : Str) :
    ensure_disclaimer (ensure_disclaimer a).1 = ensure_disclaimer a := by
  by_cases hc : (is_investment_related a && !hasDisclaimer a) = true
  · have hfst : ensure_disclaimer a =
        ((if a.getLast? = some '\n' then a else a ++ ['\n']) ++ '\n' :: DISCLAIMER_TEXT,
          true) := by
      unfold ensure_disclaimer
      rw [if_pos hc]
    have h1 : pyIn ("informational purposes only").data
        (pyLower ((if a.getLast? = some '\n' then a else a ++ ['\n'])
          ++ '\n' :: DISCLAIMER_TEXT)) = true := by
      rw [pyLower_append]
      exact pyIn_append_right _ _ _ (by decide)
    have h2 : pyIn ("not professional financial advice").data
        (pyLower ((if a.getLast? = some '\n' then a else a ++ ['\n'])
          ++ '\n' :: DISCLAIMER_TEXT)) = true := by
      rw [pyLower_append]
      exact pyIn_append_right _ _ _ (by decide)
    have hhas : hasDisclaimer ((if a.getLast? = some '\n' then a else a ++ ['\n'])
        ++ '\n' :: DISCLAIMER_TEXT) = true := by
      unfold hasDisclaimer
      rw [h1, h2]
      rfl
    rw [hfst]
    show ensure_disclaimer
      ((if a.getLast? = some '\n' then a else a ++ ['\n']) ++ '\n' :: DISCLAIMER_TEXT) = _
    unfold ensure_disclaimer
    rw [hhas]
    simp
  · have hfst : ensure_disclaimer a = (a, hasDisclaimer a) := by
      unfold ensure_disclaimer
      rw [if_neg hc]
    rw [hfst]
    simpa using hfst

/-- C2: the category is NOT computed from the original user question.  The
prompt injection mutates `first_user.parts[0]["text"]` in place and the
category tagging reads the same entry back, so for the question
`"what is an etf?"` the recorded category is `"personal_finance"` (the
system prompt contains personal-finance keywords), while
`detect_category` on the original question text yields `"investments"`.
This evaluates the embedded handler at the failing input. -/
theorem category_computed_from_injected_prompt :
    responseCategory [⟨("user").data, [⟨some ("what is an etf?").data⟩]⟩] ("ok").data =
      ("personal_finance").data ∧
    detect_category ("what is an etf?").data = ("investments").data := by
  constructor
  · exact detect_category_injected ("what is an etf?").data
  · decide

/-- C10: for every request whose first user message has a first part with
a text field, the category recorded in the response metadata is the
constant `"personal_finance"`, regardless of the question: classification
runs on the prompt-injected text, and the fixed system prompt contains
personal-finance keywords (such as `"saving"`) that match before any
other group. -/
theorem category_always_personal_finance
    (contents : List Msg) (answerText : Str) (m : Msg) (p : MsgPart)
    (ps : List MsgPart) (t : Str)
    (hfind : firstUser contents = some m) (hparts : m.parts = p :: ps)
    (htext : p.text = some t) :
    responseCategory contents answerText = ("personal_finance").data := by
  have hut : userTextAfterInjection contents =
      SYSTEM_PROMPT ++ ("\n\nUser question:\n").data ++ t := by
    unfold userTextAfterInjection
    rw [hfind]
    show (match m.parts with
      | q :: _ => SYSTEM_PROMPT ++ ("\n\nUser question:\n").data ++ q.text.getD []
      | [] => []) = _
    rw [hparts]
    show SYSTEM_PROMPT ++ ("\n\nUser question:\n").data ++ p.text.getD [] = _
    rw [htext, Option.getD_some]
  have h0 : (1 : Nat) ≤ promptPart0.length := by decide
  have hne : SYSTEM_PROMPT ++ ("\n\nUser question:\n").data ++ t ≠ [] := by
    intro h
    have hlen := congrArg List.length h
    simp only [SYSTEM_PROMPT, List.length_append, List.length_nil] at hlen
    omega
  unfold responseCategory
  rw [hut, if_neg hne]
  exact detect_category_injected t

theorem category_always_personal_finance_witness :
    responseCategory [⟨("user").data, [⟨some ("hi").data⟩]⟩] ("x").data =
      ("personal_finance").data :=
  category_always_personal_finance
    [⟨("user").data, [⟨some ("hi").data⟩]⟩] ("x").data
    ⟨("user").data, [⟨some ("hi").data⟩]⟩ ⟨some ("hi").data⟩ [] ("hi").data
    rfl rfl rfl

/-- C5: when the first upstream response has a non-200 status that is not
transient (not 429/500/502/503/504), `call_gemini` fails immediately with
an error carrying that status and the response body, with no retry (the
result does not depend on any later attempt) and no backoff sleep (the
sleep log is empty). -/
theorem call_gemini_fails_fast_on_permanent_status
    (key : Str) (hkey : key ≠ []) (net : Nat → NetResult)
    (s : Nat) (body : Str) (j : Json)
    (hnet : net 1 = NetResult.resp s body j)
    (h200 : s ≠ 200) (htrans : s ∉ ([429, 500, 502, 503, 504] : List Nat)) :
    call_gemini (some key) net 3 (4 / 5 : ℚ) = (CallOutcome.err s body, []) := by
  show (if key = [] then (CallOutcome.err 500 ("GEMINI_API_KEY not configured").data, [])
    else callGo net 3 (4 / 5) 3 1 [] []) = _
  rw [if_neg hkey]
  show callGo net 3 (4 / 5) (2 + 1) 1 [] [] = _
  simp only [callGo, hnet]
  rw [if_neg h200, if_neg htrans]

theorem call_gemini_fails_fast_on_permanent_status_witness :
    call_gemini (some ("k").data)
      (fun _ => NetResult.resp 401 ("API key not valid").data Json.null) 3 (4 / 5 : ℚ) =
      (CallOutcome.err 401 ("API key not valid").data, []) :=
  call_gemini_fails_fast_on_permanent_status ("k").data (by decide) _
    401 ("API key not valid").data Json.null rfl (by decide) (by decide)

/-- C6 counterexample: an unexpected parse failure of the upstream JSON
body (here `candidates` present but an empty list, so the `[0]` indexing
raises) is surfaced as a 502 error, not as the 500 the claim states. -/
theorem parse_failure_surfaced_as_502_not_500 :
    parse_step (Json.obj [(("candidates").data, Json.arr [])]) =
      Except.error (502, ("Invalid response from AI service").data) ∧
    (502 : Nat) ≠ 500 :=
  ⟨rfl, by decide⟩

/-- C6 amended: every unexpected parse failure of the upstream JSON body
(missing or wrongly-shaped `candidates`/`content`/`parts` fields that make
the extraction chain raise) is surfaced to the caller as a 502 error with
detail "Invalid response from AI service". -/
theorem parse_failure_maps_to_502 (raw : Json)
    (h : parse_gemini_text raw = Except.error ()) :
    parse_step raw = Except.error (502, ("Invalid response from AI service").data) := by
  unfold parse_step
  rw [h]

theorem parse_failure_maps_to_502_witness :
    parse_step (Json.num 5) =
      Except.error (502, ("Invalid response from AI service").data) :=
  parse_failure_maps_to_502 (Json.num 5) rfl
